import Mathlib

/-!
Verification development for the deno_nntp NNTP client library.

The definitions below are shallow embeddings of the TypeScript source:

* constants from `model.ts` (the file itself is absent from the sources;
  the constants are modelled from the spec, see the doc comments);
* `isTerminatingLine`, `hasBody`, `parseStatus`, `parseHeaders` and the
  multi-line body stream from `response.ts`;
* `Article.stream` (the article encoder);
* `Client.request`, `Client.post`, `Client.ihave`, `Client.authinfo` and
  `normalize` from `client.ts`.

Bytes are modelled as `Nat` (octet values), byte strings as `List Nat`.
The lazy `ReadableStream` produced for a multi-line body is modelled by
the function that drains it completely: each pull reads one line via
`BufReader.readSlice(LF)` and either closes the stream or emits a chunk,
so the full drain is the list of emitted chunks together with the bytes
left unconsumed on the connection.
-/

/-- Modelled from the spec: `model.ts` is missing from the sources; the
carriage-return octet used by `response.ts`. -/
def CRbyte : Nat := 13

/-- Modelled from the spec: `model.ts` is missing from the sources; the
line-feed octet used by `response.ts`. -/
def LFbyte : Nat := 10

/-- Modelled from the spec: `model.ts` is missing from the sources; the
termination octet `.` (0x2E). -/
def TERMINATION : Nat := 46

/-- Modelled from the spec: `model.ts` is missing from the sources; the
terminator line `.<CR><LF>`, the three bytes 0x2E 0x0D 0x0A. -/
def TERMINATING_LINE : List Nat := [46, 13, 10]

/-- Modelled from the spec: `model.ts` is missing from the sources; the
status codes announcing a multi-line data block, per the spec's framing
section: 100 (HELP), 101 (CAPABILITIES), 215 (LIST), 220 (ARTICLE),
221 (HEAD), 222 (BODY), 224 (OVER), 225 (HDR), 230 (NEWNEWS),
231 (NEWGROUPS); 211 is handled separately by `hasBody`. -/
def MultiLineResponseCodes : List Nat := [100, 101, 215, 220, 221, 222, 224, 225, 230, 231]

/-- Embeds `isTerminatingLine` from `response.ts`:
`line.every((value, index) => value === TERMINATING_LINE[index])`.
In JavaScript, `TERMINATING_LINE[index]` is `undefined` for `index ≥ 3`
and a byte value is never `===` to `undefined`, which the `none` branch
reflects. -/
def isTerminatingLine (line : List Nat) : Bool :=
  (List.range line.length).all fun i =>
    line.get? i == TERMINATING_LINE.get? i

/-- Embeds `BufReader.readSlice(LF)` (deno std) on a byte list: `none` at
end of stream; otherwise the bytes up to and including the first LF, or
all remaining bytes when no LF is present (EOF with partial data). -/
def readSliceLF (bytes : List Nat) : Option (List Nat × List Nat) :=
  if bytes.isEmpty then none
  else
    let i := bytes.findIdx fun b => b == LFbyte
    if i < bytes.length then some (bytes.take (i + 1), bytes.drop (i + 1))
    else some (bytes, [])

/-- One pull of the multi-line body stream in the `NNTPResponse`
constructor (`response.ts`), acting on the line just read: close on a
terminating line; if the first two bytes are both the termination octet,
emit the line from offset 1; otherwise emit the line unchanged. -/
inductive PullResult where
  | close : PullResult
  | emit : List Nat → PullResult
deriving DecidableEq, Repr

/-- The branch structure of the body stream's `pull` callback applied to
one line (`response.ts` lines 196–210). -/
def bodyPull (line : List Nat) : PullResult :=
  if isTerminatingLine line then .close
  else if line.get? 0 = some TERMINATION ∧ line.get? 1 = some TERMINATION then
    .emit (line.drop 1)
  else .emit line

/-- The chunk emitted for a non-terminating line. -/
def emitOf (line : List Nat) : List Nat :=
  if line.get? 0 = some TERMINATION ∧ line.get? 1 = some TERMINATION then
    line.drop 1
  else line

/-- Fuel-indexed drain of the multi-line body stream (`response.ts`):
repeatedly pulls lines until the stream closes, returning the emitted
chunks and the bytes left unread on the connection. Each pull consumes at
least one byte, so fuel exceeding the byte count never runs out; the fuel
only makes the recursion structural. At end of stream `readSlice` yields
`null`, which the source coerces to an empty `Uint8Array`
(`await bufReader.readSlice(LF) || new Uint8Array()`); the empty line
vacuously satisfies `isTerminatingLine`, closing the stream. -/
def runBodyGo : Nat → List Nat → List (List Nat) × List Nat
  | 0, _ => ([], [])
  | fuel + 1, bytes =>
    match readSliceLF bytes with
    | none => ([], [])
    | some (line, rest) =>
      if isTerminatingLine line then ([], rest)
      else
        let p := runBodyGo fuel rest
        (emitOf line :: p.1, p.2)

/-- Full drain of the multi-line body stream: `runBodyGo` with enough
fuel for the whole input. -/
def runBodyAll (bytes : List Nat) : List (List Nat) × List Nat :=
  runBodyGo (bytes.length + 1) bytes

/-- Pointwise comparison of a line against a pattern, used to reason
about `isTerminatingLine`: every position of the line must agree with the
pattern, and positions beyond the pattern's end always disagree. -/
def tlPointwise : List Nat → List Nat → Bool
  | [], _ => true
  | _ :: _, [] => false
  | a :: as, t :: ts => a == t && tlPointwise as ts

/-- A proper wire line of a multi-line block: a nonempty byte sequence
ending in LF, with no LF before the end. `BufReader.readSlice(LF)` hands
exactly such chunks to the body stream while data remains. -/
def isWireLine (l : List Nat) : Bool :=
  (l.getLast? == some LFbyte) && l.dropLast.all fun b => b != LFbyte

/-- Embeds the rendering of one header line in `Article.stream`
(`src/unnamed/part_000`): the template string `${key}: ${value}\r\n`. -/
def renderHeaderLine (kv : List Nat × List Nat) : List Nat :=
  kv.1 ++ [58, 32] ++ kv.2 ++ [13, 10]

/-- Embeds `Article.stream` for a string body (`src/unnamed/part_000`):
all header lines are enqueued first; an empty body (falsy in the source)
closes the stream right away; otherwise a blank separator line is
enqueued when at least one header line exists, followed by
`${body}\r\n.\r\n`. The body bytes are emitted verbatim — the encoder
applies no dot-stuffing. -/
def articleStream (headers : List (List Nat × List Nat)) (body : List Nat) : List Nat :=
  let lines := headers.map renderHeaderLine
  lines.flatten ++
    (if body.isEmpty then []
     else (if lines.isEmpty then [] else [13, 10]) ++ body ++ [13, 10, 46, 13, 10])

/-- Embeds `Article.stream` for a stream body (`src/unnamed/part_000`,
the `pull` callback): chunks are copied verbatim and a lone `.\r\n` is
appended after the last chunk; again no dot-stuffing is applied. -/
def articleStreamChunks (headers : List (List Nat × List Nat))
    (chunks : List (List Nat)) : List Nat :=
  let lines := headers.map renderHeaderLine
  lines.flatten ++ (if lines.isEmpty then [] else [13, 10]) ++
    chunks.flatten ++ [46, 13, 10]

/-- ASCII lower-casing of one byte, modelling the case-insensitive `/i`
flag of the `/list|follow/i` test in `hasBody` (`response.ts`). -/
def lowerByte (c : Nat) : Nat := if 65 ≤ c ∧ c ≤ 90 then c + 32 else c

/-- Whether `pat` occurs as a contiguous run inside `text`, compared
case-insensitively (ASCII). -/
def containsToken (pat text : List Nat) : Bool :=
  (text.map lowerByte).tails.any fun t => pat.isPrefixOf t

/-- Embeds `/list|follow/i.test(statusText)` from `hasBody`
(`response.ts`): the status text contains the token `list` or `follow`,
case-insensitively. -/
def textIndicatesBody (statusText : List Nat) : Bool :=
  containsToken [108, 105, 115, 116] statusText ||
    containsToken [102, 111, 108, 108, 111, 119] statusText

/-- Embeds `hasBody` from `response.ts`: statuses in
`MultiLineResponseCodes` always have a body; status 211 falls back to
inspecting the status text; every other status has no body. -/
def hasBody (status : Nat) (statusText : List Nat) : Bool :=
  if MultiLineResponseCodes.contains status then true
  else if status = 211 then textIndicatesBody statusText
  else false

/-- The body rule as the spec states it, for comparison with `hasBody`:
the explicit multi-line set, then the 211 statusText heuristic, then no
body. -/
def hasBodySpec (status : Nat) (statusText : List Nat) : Bool :=
  if status = 100 ∨ status = 101 ∨ status = 215 ∨ status = 220 ∨ status = 221 ∨
      status = 222 ∨ status = 224 ∨ status = 225 ∨ status = 230 ∨ status = 231 then true
  else if status = 211 then textIndicatesBody statusText
  else false

/-- Embeds `Client.post` (`client.ts` lines 1507–1521) abstracted over
the two server responses: given whether an article was supplied and the
status of the intermediate response to `POST`, returns the status of the
response handed back to the caller and whether the article bytes were
written to the connection. The source returns the intermediate response
when no article was supplied or when its status is 440; otherwise it
streams the article and returns the follow-up response. -/
def postRun (articleProvided : Bool) (intermediate afterSend : Nat) : Nat × Bool :=
  if !articleProvided then (intermediate, false)
  else if intermediate = 440 then (intermediate, false)
  else (afterSend, true)

/-- Embeds `Client.ihave` (`client.ts` lines 1721–1735) abstracted over
the two server responses: the source returns the intermediate response
when no article was supplied or when its status is not 335; otherwise it
streams the article and returns the follow-up response. -/
def ihaveRun (articleProvided : Bool) (intermediate afterSend : Nat) : Nat × Bool :=
  if !articleProvided then (intermediate, false)
  else if intermediate ≠ 335 then (intermediate, false)
  else (afterSend, true)

/-- The `parameter` type of `client.ts`: a command argument is a string,
a number, or `undefined`. -/
inductive Param where
  | str : String → Param
  | num : Int → Param
  | undef : Param
deriving DecidableEq, Repr

/-- JavaScript string coercion of a `parameter`, as performed by
`Array.prototype.join` and by the regex test in `normalize`: numbers
render in decimal. The `undefined` branch is unreachable in
`Client.request` because `normalize` substitutes a default first. -/
def paramToString : Param → String
  | .str s => s
  | .num n => toString n
  | .undef => "undefined"

/-- Embeds `String.prototype.toUpperCase` on ASCII command keywords:
upper-case each character. -/
def toUpperJS (s : String) : String := ⟨s.data.map Char.toUpper⟩

/-- Embeds the regex `/^[^<][^@]+@[^>]+$/` of `normalize` (`client.ts`
line 2718): the first character is not `<`; at least one non-`@`
character follows before the first `@` at position two or later; at least
one character follows the `@` and none of them is `>`. -/
def msgIdMatch (s : List Char) : Bool :=
  match s with
  | [] => false
  | c :: rest =>
    c != '<' &&
      (match rest.findIdx? fun x => x == '@' with
       | none => false
       | some i =>
         decide (1 ≤ i) && decide (i + 1 < rest.length) &&
           (rest.drop (i + 1)).all fun x => x != '>')

/-- Embeds `normalize` from `client.ts` (lines 2716–2720; the name
`normalize` itself is taken by Mathlib): an undefined argument defaults
to the empty string; an argument that looks like a bare message-id is
wrapped in angle brackets; anything else passes through. -/
def normalizeParam (arg : Param) : Param :=
  let a : Param := match arg with | .undef => .str "" | x => x
  if msgIdMatch (paramToString a).toList then .str ("<" ++ paramToString a ++ ">")
  else a

/-- Embeds `Array.prototype.join(" ")` on the stringified elements. -/
def joinSpace : List String → String
  | [] => ""
  | [x] => x
  | x :: y :: xs => x ++ " " ++ joinSpace (y :: xs)

/-- Embeds the line built by `Client.request` (`client.ts` lines
264–270): the uppercased command and the normalized, stringified
arguments joined by single spaces, terminated by CRLF. These are exactly
the bytes written to the connection for a string command. -/
def requestLine (command : String) (args : List Param) : String :=
  joinSpace (toUpperJS command :: args.map fun a => paramToString (normalizeParam a)) ++ "\r\n"

/-- Embeds `Client.authinfo` (`client.ts` lines 2704–2711), abstracted
over the status of the response to `AUTHINFO USER`: the command lines the
call writes to the connection. The `Client` class (fields at lines
140–143: options, connection, logger) keeps no `authenticated` flag, so
the writes depend only on the arguments and the server's answer — every
call sends `AUTHINFO USER`, and additionally `AUTHINFO PASS` when the
server answers 381. -/
def authinfoWrites (user pass : String) (userRespStatus : Nat) : List String :=
  requestLine "AUTHINFO USER" [Param.str user] ::
    (if userRespStatus = 381 then [requestLine "AUTHINFO PASS" [Param.str pass]] else [])

/-- Embeds the leftmost match of `[1-5][0-9][0-9]` in `RESPONSE_REGEX`
(`response.ts` line 36): scan for the first position where a digit 1–5 is
followed by two digits; return the decoded code and the bytes after it. -/
def findStatusSplit : List Nat → Option (Nat × List Nat)
  | a :: b :: c :: rest =>
    if (49 ≤ a ∧ a ≤ 53) ∧ (48 ≤ b ∧ b ≤ 57) ∧ (48 ≤ c ∧ c ≤ 57) then
      some ((a - 48) * 100 + (b - 48) * 10 + (c - 48), rest)
    else findStatusSplit (b :: c :: rest)
  | _ => none

/-- ASCII whitespace as matched by the JavaScript `\s` class on bytes
below 0x80: space, tab, LF, VT, FF, CR. -/
def isJsWs (c : Nat) : Bool :=
  c == 32 || c == 9 || c == 10 || c == 11 || c == 12 || c == 13

/-- Embeds `parseStatus` (`response.ts` lines 45–60) applied to the
status line already read: the status code from the leftmost
`[1-5][0-9][0-9]` match — `Number(groups.status || "")` yields 0 when the
regex fails — and the statusText from the optional `(?:\s+(.*))?` group:
present only when whitespace directly follows the digits, it is the text
after that whitespace run up to the first CR or LF. -/
def parseStatusLine (line : List Nat) : Nat × List Nat :=
  match findStatusSplit line with
  | none => (0, [])
  | some (code, after) =>
    (code,
      match after with
      | [] => []
      | w :: _ =>
        if isJsWs w then
          (after.dropWhile fun c => isJsWs c).takeWhile fun c => !(c == 10 || c == 13)
        else [])

/-- Embeds the status handling of the `NNTPResponse` constructor
(`response.ts` lines 216–227): the first component is the value passed to
the built-in `Response` (`status < 200 ? 200 : status`), the second the
value returned by the overridden `status` getter. -/
def constructorStatus (initStatus : Nat) : Nat × Nat :=
  (if initStatus < 200 then 200 else initStatus, initStatus)

/-- The header-name character class of `HEADER_REGEX` (`response.ts`
line 42): printable US-ASCII except the colon, `[\x21-\x39\x3B-\x7E]`. -/
def isNameChar (c : Nat) : Bool := (33 ≤ c && c ≤ 57) || (59 ≤ c && c ≤ 126)

/-- The header-value character class of `HEADER_REGEX`:
`[\x21-\xFF\s]`. -/
def isValueChar (c : Nat) : Bool := (33 ≤ c && c ≤ 255) || isJsWs c

/-- Embeds a `HEADER_REGEX` match on one line: a nonempty greedy run of
name characters, a colon, one whitespace character, then the greedy run
of value characters. Returns the captured name and value, or `none`. -/
def matchHeader (line : List Nat) : Option (List Nat × List Nat) :=
  let name := line.takeWhile isNameChar
  let rest := line.dropWhile isNameChar
  if name.isEmpty then none
  else
    match rest with
    | 58 :: s :: rest2 =>
      if isJsWs s then some (name, rest2.takeWhile isValueChar) else none
    | _ => none

/-- Fuel-indexed embedding of `parseHeaders` (`response.ts` lines
74–100): peek two bytes — at end of stream or at the termination octet,
stop without consuming; at a CRLF pair, swallow the blank line and stop;
otherwise read one line, stop (keeping the line consumed) if it is not a
header line, else append the captured header and recur. The fuel only
makes the recursion structural; reading a line consumes at least one
byte, so fuel exceeding the byte count never runs out. -/
def parseHeadersGo : Nat → List Nat → List (List Nat × List Nat) →
    List (List Nat × List Nat) × List Nat
  | 0, bytes, acc => (acc, bytes)
  | fuel + 1, bytes, acc =>
    match bytes with
    | [] => (acc, [])
    | b :: rest =>
      if b = TERMINATION then (acc, b :: rest)
      else if b = CRbyte ∧ rest.head? = some LFbyte then (acc, rest.tail)
      else
        match readSliceLF (b :: rest) with
        | none => (acc, b :: rest)
        | some (line, after) =>
          match matchHeader line with
          | none => (acc, after)
          | some kv => parseHeadersGo fuel after (acc ++ [kv])

/-- Runs `parseHeadersGo` with enough fuel for the whole input: returns the
parsed headers in order and the unconsumed bytes. -/
def parseHeaders (bytes : List Nat) : List (List Nat × List Nat) × List Nat :=
  parseHeadersGo (bytes.length + 1) bytes []

/-- The Response value built by `NNTPResponse.from` plus the constructor
(`response.ts`): the hidden status given to the built-in `Response`, the
overridden `status` getter, statusText, parsed headers, whether a body
stream was attached, and (for the model) the chunks a full drain of that
stream would emit. -/
structure NNTPResponseModel where
  superStatus : Nat
  status : Nat
  statusText : List Nat
  headers : List (List Nat × List Nat)
  hasBodyStream : Bool
  bodyChunks : List (List Nat)
deriving DecidableEq, Repr

/-- Embeds the body decision of the `NNTPResponse` constructor
(`response.ts` line 175): a stream is attached iff
`status !== 221 && hasBody(status, statusText)`; the model pairs it with
the drain of the remaining bytes. -/
def responseBody (status : Nat) (statusText afterHeaders : List Nat) :
    Option (List (List Nat) × List Nat) :=
  if status ≠ 221 ∧ hasBody status statusText = true then some (runBodyAll afterHeaders)
  else none

/-- Embeds `NNTPResponse.from` (`response.ts` lines 149–163) followed by
the constructor: read the status line, parse status and statusText, parse
article headers when the status is 220 or 221, then attach a body stream
per `responseBody`. Returns the Response model and the bytes left
unconsumed on the connection. -/
def NNTPResponse_from (bytes : List Nat) : NNTPResponseModel × List Nat :=
  let line := match readSliceLF bytes with | none => [] | some x => x.1
  let rest0 := match readSliceLF bytes with | none => [] | some x => x.2
  let st := parseStatusLine line
  let hp := if st.1 = 220 ∨ st.1 = 221 then parseHeaders rest0 else ([], rest0)
  match responseBody st.1 st.2 hp.2 with
  | some d =>
    ({ superStatus := if st.1 < 200 then 200 else st.1
       status := st.1
       statusText := st.2
       headers := hp.1
       hasBodyStream := true
       bodyChunks := d.1 }, d.2)
  | none =>
    ({ superStatus := if st.1 < 200 then 200 else st.1
       status := st.1
       statusText := st.2
       headers := hp.1
       hasBodyStream := false
       bodyChunks := [] }, hp.2)

theorem readSliceLF_length {bytes line rest : List Nat}
    (h : readSliceLF bytes = some (line, rest)) : rest.length < bytes.length := by
  unfold readSliceLF at h
  split at h
  · exact Option.noConfusion h
  · rename_i hne
    dsimp only at h
    split at h
    · simp only [Option.some.injEq, Prod.mk.injEq] at h
      obtain ⟨_, hr⟩ := h
      subst hr
      simp only [List.length_drop]
      cases bytes with
      | nil => simp at hne
      | cons b bs => simp; omega
    · simp only [Option.some.injEq, Prod.mk.injEq] at h
      obtain ⟨_, hr⟩ := h
      subst hr
      cases bytes with
      | nil => simp at hne
      | cons b bs => simp

/-- The fuel argument of `runBodyGo` is irrelevant once it exceeds the
number of bytes remaining. -/
theorem runBodyGo_congr : ∀ {f₁ f₂ : Nat} {bytes : List Nat},
    bytes.length < f₁ → bytes.length < f₂ → runBodyGo f₁ bytes = runBodyGo f₂ bytes
  | 0, _, _, h₁, _ => absurd h₁ (Nat.not_lt_zero _).elim
  | _ + 1, 0, _, _, h₂ => absurd h₂ (Nat.not_lt_zero _).elim
  | f₁ + 1, f₂ + 1, bytes, h₁, h₂ => by
    unfold runBodyGo
    match h : readSliceLF bytes with
    | none => rfl
    | some (line, rest) =>
      simp only
      split
      · rfl
      · have hlen := readSliceLF_length h
        have := @runBodyGo_congr f₁ f₂ rest (by omega) (by omega)
        rw [this]

theorem range_all_get_eq_tlPointwise (l pat : List Nat) :
    ((List.range l.length).all fun i => l.get? i == pat.get? i) = tlPointwise l pat := by
  induction l generalizing pat with
  | nil => rfl
  | cons a as ih =>
    rw [List.length_cons, List.range_succ_eq_map, List.all_cons, List.all_map]
    cases pat with
    | nil =>
      simp [tlPointwise]
    | cons t ts =>
      have : ((fun i => (a :: as).get? i == (t :: ts).get? i) ∘ Nat.succ)
          = fun i => as.get? i == ts.get? i := by
        funext i
        rfl
      rw [this, ih ts]
      simp [tlPointwise]

theorem isTerminatingLine_eq_tlPointwise (l : List Nat) :
    isTerminatingLine l = tlPointwise l TERMINATING_LINE :=
  range_all_get_eq_tlPointwise l TERMINATING_LINE

/-- On lines that end with LF, `isTerminatingLine` holds exactly for the
terminator line `.<CR><LF>` itself: all other values it accepts (the
proper prefixes of `[46, 13, 10]`) do not end with LF. -/
theorem isTerminatingLine_iff_of_wire {l : List Nat} (h : isWireLine l = true) :
    isTerminatingLine l = true ↔ l = TERMINATING_LINE := by
  rw [isTerminatingLine_eq_tlPointwise]
  unfold isWireLine at h
  rw [Bool.and_eq_true, beq_iff_eq] at h
  obtain ⟨hlast, -⟩ := h
  match l with
  | [] => simp at hlast
  | [a] =>
    simp only [List.getLast?_singleton, Option.some.injEq] at hlast
    subst hlast
    simp [tlPointwise, TERMINATING_LINE, LFbyte]
  | [a, b] =>
    simp only [List.getLast?_cons_cons, List.getLast?_singleton, Option.some.injEq] at hlast
    subst hlast
    simp [tlPointwise, TERMINATING_LINE, LFbyte]
  | [a, b, c] =>
    simp only [List.getLast?_cons_cons, List.getLast?_singleton, Option.some.injEq] at hlast
    subst hlast
    simp [tlPointwise, TERMINATING_LINE, LFbyte]
  | a :: b :: c :: d :: tl =>
    simp [tlPointwise, TERMINATING_LINE, LFbyte]

theorem findIdx_append_lf {b : List Nat} (rest : List Nat)
    (hb : ∀ x ∈ b, (x == LFbyte) = false) :
    (b ++ LFbyte :: rest).findIdx (fun y => y == LFbyte) = b.length := by
  induction b with
  | nil => simp [List.findIdx_cons]
  | cons x xs ih =>
    have hx : (x == LFbyte) = false := hb x (by simp)
    rw [List.cons_append, List.findIdx_cons, hx]
    simp only [cond_false]
    rw [ih fun y hy => hb y (by simp [hy])]
    simp

/-- Reading one slice off a stream that begins with a proper wire line
yields that line and leaves the remainder untouched. -/
theorem readSliceLF_append {l : List Nat} (tail : List Nat) (h : isWireLine l = true) :
    readSliceLF (l ++ tail) = some (l, tail) := by
  unfold isWireLine at h
  rw [Bool.and_eq_true, beq_iff_eq] at h
  obtain ⟨hlast, hbody⟩ := h
  have hne : l ≠ [] := by
    intro he; subst he; simp at hlast
  have hgl : l.getLast hne = LFbyte := by
    have h2 := List.getLast?_eq_getLast l hne
    rw [h2, Option.some.injEq] at hlast
    exact hlast
  have hdecomp : l.dropLast ++ [LFbyte] = l := by
    conv_rhs => rw [← List.dropLast_append_getLast hne]
    rw [hgl]
  have hball : ∀ x ∈ l.dropLast, (x == LFbyte) = false := by
    intro x hx
    have hx2 := List.all_eq_true.mp hbody x hx
    simpa using hx2
  rw [← hdecomp, List.append_assoc, List.singleton_append]
  have hemp : (l.dropLast ++ LFbyte :: tail).isEmpty = false := by
    cases l.dropLast <;> rfl
  have hfind := @findIdx_append_lf l.dropLast tail hball
  have hsplit : l.dropLast ++ LFbyte :: tail = (l.dropLast ++ [LFbyte]) ++ tail := by
    simp
  have hlen : (l.dropLast ++ [LFbyte]).length = l.dropLast.length + 1 := by
    simp
  unfold readSliceLF
  rw [hemp]
  simp only [Bool.false_eq_true, if_false, hfind]
  rw [if_pos (by simp)]
  rw [hsplit, List.take_left' hlen, List.drop_left' hlen]

/-- Draining a stream that begins with the terminator line closes at
once, emitting nothing and leaving the remaining bytes unread. -/
theorem runBodyAll_terminator (rest : List Nat) :
    runBodyAll (TERMINATING_LINE ++ rest) = ([], rest) := by
  unfold runBodyAll
  have hlen : (TERMINATING_LINE ++ rest).length + 1 = (rest.length + 3) + 1 := by
    simp [TERMINATING_LINE]
  rw [hlen]
  unfold runBodyGo
  rw [readSliceLF_append rest (by decide)]
  simp only
  rw [if_pos (by decide)]

/-- Draining a stream that begins with a non-terminating wire line emits
the (possibly un-stuffed) line and continues on the remainder. -/
theorem runBodyAll_cons {l : List Nat} (tail : List Nat)
    (hw : isWireLine l = true) (ht : isTerminatingLine l = false) :
    runBodyAll (l ++ tail) = ((emitOf l) :: (runBodyAll tail).1, (runBodyAll tail).2) := by
  have hne : l ≠ [] := by
    intro he
    subst he
    simp [isWireLine] at hw
  have hlenlt : tail.length < (l ++ tail).length := by
    cases l with
    | nil => exact absurd rfl hne
    | cons x xs => simp; omega
  conv_lhs => unfold runBodyAll
  unfold runBodyGo
  rw [readSliceLF_append tail hw]
  simp only
  rw [if_neg (by rw [ht]; exact Bool.false_ne_true)]
  have hcongr : runBodyGo (l ++ tail).length tail = runBodyGo (tail.length + 1) tail :=
    runBodyGo_congr hlenlt (Nat.lt_succ_self _)
  rw [hcongr]
  rfl

example : isTerminatingLine [] = true := by decide

example : isTerminatingLine [46, 13] = true := by decide

example : isTerminatingLine [46, 97, 13, 10] = false := by decide

example : bodyPull [46, 97, 13, 10] = .emit [46, 97, 13, 10] := by decide

example : bodyPull [46, 46, 88, 13, 10] = .emit [46, 88, 13, 10] := by decide

example : runBodyAll [97, 13, 10, 46, 13, 10, 99] = ([[97, 13, 10]], [99]) := by decide

example : runBodyAll [97, 13, 10] = ([[97, 13, 10]], []) := by decide

/-- C1: for every sequence of wire lines pulled by the multi-line body
stream, the stream closes exactly when the line just read equals
`.<CR><LF>` (bytes 0x2E 0x0D 0x0A). Part one: draining input made of
non-terminator wire lines followed by the terminator emits exactly one
chunk per preceding line, consumes nothing past the terminator, and never
emits the terminator line itself (the close carries no emission). Part
two: a single pull on a wire line closes the stream if and only if the
line is exactly `.<CR><LF>`. -/
theorem C1_body_stream_closes_exactly_on_terminator :
    (∀ (pre : List (List Nat)) (rest : List Nat),
      (∀ l ∈ pre, isWireLine l = true ∧ l ≠ TERMINATING_LINE) →
      runBodyAll (pre.flatten ++ TERMINATING_LINE ++ rest) = (pre.map emitOf, rest)) ∧
    (∀ l : List Nat, isWireLine l = true →
      (bodyPull l = PullResult.close ↔ l = TERMINATING_LINE)) := by
  constructor
  · intro pre
    induction pre with
    | nil =>
      intro rest _
      simpa using runBodyAll_terminator rest
    | cons l ls ih =>
      intro rest h
      obtain ⟨hw, hne⟩ := h l (by simp)
      have ht : isTerminatingLine l = false := by
        rcases Bool.eq_false_or_eq_true (isTerminatingLine l) with htr | hf
        · exact absurd ((isTerminatingLine_iff_of_wire hw).mp htr) hne
        · exact hf
      have hrec := ih rest fun x hx => h x (by simp [hx])
      calc runBodyAll ((l :: ls).flatten ++ TERMINATING_LINE ++ rest)
          = runBodyAll (l ++ (ls.flatten ++ TERMINATING_LINE ++ rest)) := by
            simp [List.append_assoc]
        _ = (emitOf l :: (runBodyAll (ls.flatten ++ TERMINATING_LINE ++ rest)).1,
             (runBodyAll (ls.flatten ++ TERMINATING_LINE ++ rest)).2) :=
            runBodyAll_cons _ hw ht
        _ = ((l :: ls).map emitOf, rest) := by rw [hrec]; simp
  · intro l hw
    rcases Bool.eq_false_or_eq_true (isTerminatingLine l) with htr | hf
    · have hterm := (isTerminatingLine_iff_of_wire hw).mp htr
      constructor
      · intro _; exact hterm
      · intro _
        unfold bodyPull
        rw [htr]
        simp
    · constructor
      · intro hclose
        unfold bodyPull at hclose
        rw [hf] at hclose
        simp only [Bool.false_eq_true, if_false] at hclose
        split at hclose <;> simp at hclose
      · intro heq
        subst heq
        have htt : isTerminatingLine TERMINATING_LINE = true := by decide
        rw [htt] at hf
        exact Bool.noConfusion hf

/-- Witness for C1: a concrete block with one ordinary line, then the
terminator, then bytes belonging to the next response. -/
theorem C1_body_stream_closes_exactly_on_terminator_witness :
    runBodyAll ([[97, 13, 10]].flatten ++ TERMINATING_LINE ++ [53, 55]) =
      ([[97, 13, 10]].map emitOf, [53, 55]) ∧
    (bodyPull [46, 13, 10] = PullResult.close ↔ [46, 13, 10] = TERMINATING_LINE) :=
  ⟨C1_body_stream_closes_exactly_on_terminator.1 [[97, 13, 10]] [53, 55] (by decide),
   C1_body_stream_closes_exactly_on_terminator.2 [46, 13, 10] (by decide)⟩

/-- C3 (code evaluated at the failing input): the body stream's
un-stuffing branch (`response.ts` line 206) fires only when the first two
bytes are both the termination octet. A wire line `.a\r\n` — the
termination octet followed by a non-CRLF byte — is emitted unchanged, its
leading dot not removed, contradicting the recipient requirement quoted
in the source's own comment; a wire line `..X\r\n` is un-stuffed to
`.X\r\n` as documented. -/
theorem C3_dot_strip_only_for_double_dot :
    bodyPull [46, 97, 13, 10] = PullResult.emit [46, 97, 13, 10] ∧
    bodyPull [46, 97, 13, 10] ≠ PullResult.emit [97, 13, 10] ∧
    bodyPull [46, 46, 88, 13, 10] = PullResult.emit [46, 88, 13, 10] := by decide

/-- C4 counterexample: on input `a\r\n` the underlying stream ends before
any terminator line, yet the drain returns normally — the final pull reads
`null`, coerced to an empty line, which vacuously satisfies
`isTerminatingLine`, closing the stream. The same coercion closes the
stream on an immediately-empty stream. No error is produced anywhere. -/
theorem C4_counterexample_eof_closes_normally :
    runBodyAll [97, 13, 10] = ([[97, 13, 10]], []) ∧
    bodyPull [] = PullResult.close := by decide

/-- C4 amended: if the underlying byte stream reaches end-of-stream
before a terminator line has been read, the multi-line body stream closes
normally as if the body had completed, emitting every line read so far;
no UnexpectedEOF or ProtocolError is raised (the source has no error path
in the pull callback). -/
theorem C4_eof_before_terminator_closes_normally :
    ∀ (pre : List (List Nat)),
      (∀ l ∈ pre, isWireLine l = true ∧ l ≠ TERMINATING_LINE) →
      runBodyAll pre.flatten = (pre.map emitOf, []) := by
  intro pre
  induction pre with
  | nil => intro _; rfl
  | cons l ls ih =>
    intro h
    obtain ⟨hw, hne⟩ := h l (by simp)
    have ht : isTerminatingLine l = false := by
      rcases Bool.eq_false_or_eq_true (isTerminatingLine l) with htr | hf
      · exact absurd ((isTerminatingLine_iff_of_wire hw).mp htr) hne
      · exact hf
    have hrec := ih fun x hx => h x (by simp [hx])
    calc runBodyAll ((l :: ls).flatten)
        = runBodyAll (l ++ ls.flatten) := by simp
      _ = (emitOf l :: (runBodyAll ls.flatten).1, (runBodyAll ls.flatten).2) :=
          runBodyAll_cons _ hw ht
      _ = ((l :: ls).map emitOf, []) := by rw [hrec]; simp

/-- Witness for the amended C4: a concrete unterminated block. -/
theorem C4_eof_before_terminator_closes_normally_witness :
    runBodyAll [[97, 13, 10], [46, 46, 13, 10]].flatten =
      ([[97, 13, 10], [46, 46, 13, 10]].map emitOf, []) :=
  C4_eof_before_terminator_closes_normally [[97, 13, 10], [46, 46, 13, 10]] (by decide)

/-- C2 (code evaluated at the failing input): posting the body `.` emits
the wire bytes `.\r\n.\r\n` with no dot-stuffing, so the reader treats
the first `.\r\n` as the terminator: the decoded body is empty and the
round-trip `decode(encode(B)) = B` fails, with the article's real
terminator left on the connection to corrupt the next response. -/
theorem C2_encoder_does_not_dot_stuff :
    articleStream [] [46] = [46, 13, 10, 46, 13, 10] ∧
    runBodyAll (articleStream [] [46]) = ([], [46, 13, 10]) ∧
    (runBodyAll (articleStream [] [46])).1.flatten = ([] : List Nat) ∧
    ([] : List Nat) ≠ [46] := by decide

/-- C5: whether a multi-line body follows is decided from the status code
alone: the statuses 100, 101, 215, 220, 221, 222, 224, 225, 230, 231 have
a body; status 211 has a body exactly when its statusText contains the
token `list` or `follow` case-insensitively; every other status has no
body. -/
theorem C5_body_decided_by_status_code :
    ∀ (status : Nat) (statusText : List Nat),
      hasBody status statusText = hasBodySpec status statusText := by
  intro status statusText
  have hcond : MultiLineResponseCodes.contains status = true ↔
      (status = 100 ∨ status = 101 ∨ status = 215 ∨ status = 220 ∨ status = 221 ∨
        status = 222 ∨ status = 224 ∨ status = 225 ∨ status = 230 ∨ status = 231) := by
    simp [MultiLineResponseCodes]
  unfold hasBody hasBodySpec
  split_ifs <;> simp_all [hcond]

/-- C6 counterexample: with an article supplied and an intermediate
status of 441 — not 340 — `post` still writes the article to the
connection, because the source only guards against status 440. The claim
that the article is written if and only if the intermediate status is 340
is therefore false. -/
theorem C6_counterexample_post_sends_on_441 :
    (postRun true 441 240).2 = true ∧ 441 ≠ 340 := by decide

/-- C6 amended: with an article supplied, `ihave` writes the article if
and only if the intermediate status is 335, and `post` writes the article
if and only if the intermediate status is not 440; whenever the article
is not written, the intermediate response is returned unchanged; without
an article neither command writes it. -/
theorem C6_amended_post_ihave_send_conditions :
    ∀ (intermediate afterSend : Nat),
      ((ihaveRun true intermediate afterSend).2 = decide (intermediate = 335)) ∧
      ((postRun true intermediate afterSend).2 = decide (intermediate ≠ 440)) ∧
      (intermediate ≠ 335 → ihaveRun true intermediate afterSend = (intermediate, false)) ∧
      (intermediate = 440 → postRun true intermediate afterSend = (intermediate, false)) ∧
      (postRun false intermediate afterSend = (intermediate, false)) ∧
      (ihaveRun false intermediate afterSend = (intermediate, false)) := by
  intro intermediate afterSend
  by_cases h335 : intermediate = 335 <;> by_cases h440 : intermediate = 440 <;>
    simp_all [postRun, ihaveRun]

/-- Witness for the amended C6: at intermediate status 440, both
commands return the intermediate response without writing the article. -/
theorem C6_amended_post_ihave_send_conditions_witness :
    ihaveRun true 440 235 = (440, false) ∧ postRun true 440 240 = (440, false) :=
  ⟨(C6_amended_post_ihave_send_conditions 440 235).2.2.1 (by decide),
   (C6_amended_post_ihave_send_conditions 440 240).2.2.2.1 rfl⟩

example : requestLine "group" [Param.str "misc.test"] = "GROUP misc.test\r\n" := by decide

example : requestLine "article" [Param.str "abc@example.com"] =
    "ARTICLE <abc@example.com>\r\n" := by decide

example : requestLine "article" [Param.num 3000234] = "ARTICLE 3000234\r\n" := by decide

/-- C8 counterexample: an undefined argument is not skipped. `normalize`
turns it into the empty string, but `join(" ")` still inserts the
separating space, so `request("hdr", "Subject", undefined)` writes
`HDR Subject \r\n` — one byte more than the `HDR Subject\r\n` the claim
requires. -/
theorem C8_counterexample_undefined_not_skipped :
    requestLine "hdr" [Param.str "Subject", Param.undef] = "HDR Subject \r\n" ∧
    requestLine "hdr" [Param.str "Subject", Param.undef] ≠ "HDR Subject\r\n" := by
  decide

/-- C8 amended: `request` writes the uppercased command and the
whitespace-joined stringified arguments followed by CRLF, wrapping bare
message-id arguments in angle brackets and rendering integers in
decimal; an undefined argument is replaced by the empty string but still
contributes its separating space. -/
theorem C8_amended_request_line_format :
    ∀ (cmd s : String) (n : Int),
      (requestLine cmd [] = toUpperJS cmd ++ "\r\n") ∧
      (msgIdMatch s.toList = true →
        requestLine cmd [Param.str s] = toUpperJS cmd ++ " " ++ ("<" ++ s ++ ">") ++ "\r\n") ∧
      (msgIdMatch s.toList = false →
        requestLine cmd [Param.str s] = toUpperJS cmd ++ " " ++ s ++ "\r\n") ∧
      (msgIdMatch (toString n).toList = false →
        requestLine cmd [Param.num n] = toUpperJS cmd ++ " " ++ toString n ++ "\r\n") ∧
      (requestLine cmd [Param.undef] = toUpperJS cmd ++ " " ++ "" ++ "\r\n") := by
  intro cmd s n
  refine ⟨rfl, ?_, ?_, ?_, ?_⟩
  · intro h
    have h2 : msgIdMatch s.data = true := h
    simp [requestLine, normalizeParam, paramToString, joinSpace, h2]
  · intro h
    have h2 : msgIdMatch s.data = false := h
    simp [requestLine, normalizeParam, paramToString, joinSpace, h2]
  · intro h
    have h2 : msgIdMatch (toString n).data = false := h
    simp [requestLine, normalizeParam, paramToString, joinSpace, h2]
  · simp [requestLine, normalizeParam, paramToString, joinSpace, msgIdMatch]

/-- Witness for the amended C8: the format at concrete arguments. -/
theorem C8_amended_request_line_format_witness :
    requestLine "hdr" [] = toUpperJS "hdr" ++ "\r\n" ∧
    requestLine "hdr" [Param.str "abc@example.com"] =
      toUpperJS "hdr" ++ " " ++ ("<" ++ "abc@example.com" ++ ">") ++ "\r\n" ∧
    requestLine "hdr" [Param.num 42] = toUpperJS "hdr" ++ " " ++ toString (42 : Int) ++ "\r\n" ∧
    requestLine "hdr" [Param.undef] = toUpperJS "hdr" ++ " " ++ "" ++ "\r\n" :=
  ⟨(C8_amended_request_line_format "hdr" "abc@example.com" 42).1,
   (C8_amended_request_line_format "hdr" "abc@example.com" 42).2.1 (by decide),
   (C8_amended_request_line_format "hdr" "abc@example.com" 42).2.2.2.1 (by decide),
   (C8_amended_request_line_format "hdr" "abc@example.com" 42).2.2.2.2⟩

/-- C9 (code evaluated at the failing input): after a first
`authinfo("foo", "bar")` answered with 281, a second identical call still
writes `AUTHINFO USER foo\r\n` to the connection — `authinfoWrites` does
not depend on any session state, because the client stores none. The
repository's own test (`client_test.ts`, step "should not try to
authenticate again if authenticated") expects no further request and a
`client.authenticated` getter, neither of which the code provides. -/
theorem C9_authinfo_always_sends :
    authinfoWrites "foo" "bar" 281 = ["AUTHINFO USER foo\r\n"] ∧
    authinfoWrites "foo" "bar" 281 ≠ [] := by decide

example : parseStatusLine [49, 49, 49, 32, 50, 48, 50, 51, 13, 10] =
    (111, [50, 48, 50, 51]) := by decide

/-- C7: for every status line beginning with a three-digit code 1xx–5xx,
the parsed status is exactly that code, it lies in 100–599, and the
`status` getter of the constructed Response returns it verbatim — for
informational codes below 200 only the hidden status handed to the
built-in `Response` is coerced to 200, never the getter. -/
theorem C7_status_preserved_verbatim :
    ∀ (a b c : Nat) (rest : List Nat),
      49 ≤ a → a ≤ 53 → 48 ≤ b → b ≤ 57 → 48 ≤ c → c ≤ 57 →
      ((parseStatusLine (a :: b :: c :: rest)).1 = (a - 48) * 100 + (b - 48) * 10 + (c - 48)) ∧
      100 ≤ (parseStatusLine (a :: b :: c :: rest)).1 ∧
      (parseStatusLine (a :: b :: c :: rest)).1 ≤ 599 ∧
      ((constructorStatus (parseStatusLine (a :: b :: c :: rest)).1).2 =
        (parseStatusLine (a :: b :: c :: rest)).1) ∧
      ((parseStatusLine (a :: b :: c :: rest)).1 < 200 →
        (constructorStatus (parseStatusLine (a :: b :: c :: rest)).1).1 = 200) := by
  intro a b c rest h1 h2 h3 h4 h5 h6
  have hsplit : findStatusSplit (a :: b :: c :: rest) =
      some ((a - 48) * 100 + (b - 48) * 10 + (c - 48), rest) := by
    unfold findStatusSplit
    rw [if_pos ⟨⟨h1, h2⟩, ⟨h3, h4⟩, ⟨h5, h6⟩⟩]
  have hfst : (parseStatusLine (a :: b :: c :: rest)).1 =
      (a - 48) * 100 + (b - 48) * 10 + (c - 48) := by
    unfold parseStatusLine
    rw [hsplit]
  refine ⟨hfst, ?_, ?_, rfl, ?_⟩
  · rw [hfst]; omega
  · rw [hfst]; omega
  · intro h
    unfold constructorStatus
    rw [if_pos h]

/-- Witness for C7: the status line `111 20230101120000\r\n` — an
informational code — parses to 111 and the getter returns 111. -/
theorem C7_status_preserved_verbatim_witness :
    ((parseStatusLine ([49, 49, 49] ++ [32, 50, 13, 10])).1 =
      (49 - 48) * 100 + (49 - 48) * 10 + (49 - 48)) ∧
    100 ≤ (parseStatusLine ([49, 49, 49] ++ [32, 50, 13, 10])).1 ∧
    (parseStatusLine ([49, 49, 49] ++ [32, 50, 13, 10])).1 ≤ 599 ∧
    ((constructorStatus (parseStatusLine ([49, 49, 49] ++ [32, 50, 13, 10])).1).2 =
      (parseStatusLine ([49, 49, 49] ++ [32, 50, 13, 10])).1) ∧
    ((parseStatusLine ([49, 49, 49] ++ [32, 50, 13, 10])).1 < 200 →
      (constructorStatus (parseStatusLine ([49, 49, 49] ++ [32, 50, 13, 10])).1).1 = 200) :=
  C7_status_preserved_verbatim 49 49 49 [32, 50, 13, 10]
    (by decide) (by decide) (by decide) (by decide) (by decide) (by decide)

example : NNTPResponse_from
    [50, 50, 49, 32, 48, 32, 97, 13, 10,
     83, 117, 98, 106, 101, 99, 116, 58, 32, 104, 105, 13, 10,
     46, 13, 10] =
  ({ superStatus := 221
     status := 221
     statusText := [48, 32, 97]
     headers := [([83, 117, 98, 106, 101, 99, 116], [104, 105, 13, 10])]
     hasBodyStream := false
     bodyChunks := [] }, [46, 13, 10]) := by decide

/-- C10: a response with status 221 (HEAD) gets a null body even though
221 is a multi-line status: `responseBody` yields no stream at 221,
although `hasBody` itself returns true for 221; any Response the pipeline
builds with status 221 has no body stream; and `parseHeaders` never
consumes a pending line that starts with the termination octet, so the
block's terminating `.\r\n` is left unread on the connection. -/
theorem C10_head_response_has_no_body :
    (∀ (statusText afterHeaders : List Nat),
      responseBody 221 statusText afterHeaders = none) ∧
    (∀ statusText : List Nat, hasBody 221 statusText = true) ∧
    (∀ bytes : List Nat, (NNTPResponse_from bytes).1.status = 221 →
      (NNTPResponse_from bytes).1.hasBodyStream = false) ∧
    (∀ (bytes : List Nat) (acc : List (List Nat × List Nat)) (fuel : Nat),
      bytes.head? = some TERMINATION → parseHeadersGo (fuel + 1) bytes acc = (acc, bytes)) := by
  refine ⟨?_, ?_, ?_, ?_⟩
  · intro statusText afterHeaders
    simp [responseBody]
  · intro statusText
    unfold hasBody
    rw [if_pos]
    decide
  · intro bytes
    unfold NNTPResponse_from
    dsimp only
    split
    · rename_i d hmatch
      dsimp only
      intro h
      rw [h] at hmatch
      simp [responseBody] at hmatch
    · intro _
      rfl
  · intro bytes acc fuel h
    cases bytes with
    | nil => exact Option.noConfusion h
    | cons b rest =>
      simp only [List.head?_cons, Option.some.injEq] at h
      subst h
      unfold parseHeadersGo
      simp

/-- Witness for C10: a concrete HEAD response with one header; the body
is null and the terminator is still on the connection. -/
theorem C10_head_response_has_no_body_witness :
    responseBody 221 [48] [46, 13, 10] = none ∧
    hasBody 221 [] = true ∧
    (NNTPResponse_from
      [50, 50, 49, 32, 48, 32, 97, 13, 10,
       83, 117, 98, 106, 101, 99, 116, 58, 32, 104, 105, 13, 10,
       46, 13, 10]).1.hasBodyStream = false ∧
    parseHeadersGo (4 + 1) [46, 13, 10] [] = ([], [46, 13, 10]) :=
  ⟨C10_head_response_has_no_body.1 [48] [46, 13, 10],
   C10_head_response_has_no_body.2.1 [],
   C10_head_response_has_no_body.2.2.1 _ (by decide),
   C10_head_response_has_no_body.2.2.2 [46, 13, 10] [] 4 (by decide)⟩
